import Mathlib

/-!
Verification of the Procedural Contour Synthesis and Safe Hole Placement
Engine (src/stl_generator.py, src/llm_contour_ideator.py) against its
natural-language specification.

The Python floating-point arithmetic is idealized over ℝ.  `round(x, 4)`
is modelled as `⌊10000 x + 1/2⌋ / 10000`; it differs from Python's
round-half-to-even only on exact half-way values, which none of the
concrete inputs used below ever hit.
-/

namespace TangibleKeychain

noncomputable section

/-! ## Geometry primitives, from src/stl_generator.py -/

/-- Model of `math.hypot`. -/
def hypotR (x y : ℝ) : ℝ := Real.sqrt (x ^ 2 + y ^ 2)

/-- Model of `round(x, 4)` (see header note on half-way values). -/
def round4 (x : ℝ) : ℝ := ((⌊x * 10000 + 1 / 2⌋ : ℤ) : ℝ) / 10000

/-- Source `_rotate_pts`: rotate every point by `deg` degrees. -/
def rotatePts (pts : List (ℝ × ℝ)) (deg : ℝ) : List (ℝ × ℝ) :=
  let a := deg * Real.pi / 180
  let c := Real.cos a
  let s := Real.sin a
  pts.map fun p => (p.1 * c - p.2 * s, p.1 * s + p.2 * c)

/-- Source `_scale_pts`. -/
def scalePts (pts : List (ℝ × ℝ)) (sx sy : ℝ) : List (ℝ × ℝ) :=
  pts.map fun p => (p.1 * sx, p.2 * sy)

/-- The `max_r` loop of source `_normalize_to_radius`: running maximum of the
point norms, started at `1e-9`, updated on strict increase. -/
def maxRadius (pts : List (ℝ × ℝ)) : ℝ :=
  pts.foldl (fun m p => if hypotR p.1 p.2 > m then hypotR p.1 p.2 else m) 1e-9

/-- Source `_normalize_to_radius`: scale so the maximum norm becomes
`targetR`, rounding every coordinate to 4 decimals. -/
def normalizeToRadius (pts : List (ℝ × ℝ)) (targetR : ℝ) : List (ℝ × ℝ) :=
  let s := targetR / maxRadius pts
  pts.map fun p => (round4 (p.1 * s), round4 (p.2 * s))

/-- Source `_polygon_centroid`: plain vertex average. -/
def polygonCentroid (pts : List (ℝ × ℝ)) : ℝ × ℝ :=
  (((pts.map Prod.fst).sum) / ((max 1 pts.length : ℕ) : ℝ),
   ((pts.map Prod.snd).sum) / ((max 1 pts.length : ℕ) : ℝ))

/-- Source `_shrink_polygon`: scale every vertex toward the centroid. -/
def shrinkPolygon (pts : List (ℝ × ℝ)) (factor : ℝ) : List (ℝ × ℝ) :=
  let c := polygonCentroid pts
  pts.map fun p => (c.1 + (p.1 - c.1) * factor, c.2 + (p.2 - c.2) * factor)

/-- The edge list walked by source `_point_in_poly`: pairs
`(poly[i], poly[j])` with `j = i - 1 mod n` (so `j = n - 1` for `i = 0`). -/
def edgePairs (poly : List (ℝ × ℝ)) : List ((ℝ × ℝ) × (ℝ × ℝ)) :=
  poly.zip (poly.getLastD (0, 0) :: poly)

/-- Source `_point_in_poly`: ray-casting parity test, with the source's
`1e-12` guard in the denominator. -/
def pointInPoly (x y : ℝ) (poly : List (ℝ × ℝ)) : Bool :=
  (edgePairs poly).foldl
    (fun inside e =>
      if (¬ ((e.1.2 > y) ↔ (e.2.2 > y))) ∧
          x < (e.2.1 - e.1.1) * (y - e.1.2) / ((e.2.2 - e.1.2) + 1e-12) + e.1.1
      then !inside else inside)
    false

/-- The candidate loop of `_pick_hole_center`: first candidate that passes
the ray-casting test against `safePoly`. -/
def firstInside (safePoly : List (ℝ × ℝ)) : List (ℝ × ℝ) → Option (ℝ × ℝ)
  | [] => none
  | c :: rest =>
      if pointInPoly c.1 c.2 safePoly then some c else firstInside safePoly rest

/-- Python `min` of a nonempty list (0 on the empty list, unreachable in the
source, which raises there). -/
def listMin : List ℝ → ℝ
  | [] => 0
  | x :: xs => xs.foldl min x

/-- Python `max` of a nonempty list (0 on the empty list). -/
def listMax : List ℝ → ℝ
  | [] => 0
  | x :: xs => xs.foldl max x

/-- The shrink factor `max(0.60, min(0.82, 1 - (hr + 3.5)/22))` computed by
`_pick_hole_center`. -/
def holeShrinkFactor (hr : ℝ) : ℝ :=
  max 0.60 (min 0.82 (1 - (hr + 3.5) / 22))

/-- The shrunk ("safe") polygon used by `_pick_hole_center`. -/
def safePolyOf (pts : List (ℝ × ℝ)) (hr : ℝ) : List (ℝ × ℝ) :=
  shrinkPolygon pts (holeShrinkFactor hr)

/-- Source `_pick_hole_center`: four anchors, then a 30-step scan from the
centroid toward the top, then the fixed fallback `(0, 16)`. -/
def pickHoleCenter (pts : List (ℝ × ℝ)) (hr : ℝ) : ℝ × ℝ :=
  let xs := pts.map Prod.fst
  let ys := pts.map Prod.snd
  let minx := listMin xs
  let maxx := listMax xs
  let miny := listMin ys
  let maxy := listMax ys
  let safePoly := safePolyOf pts hr
  let inward := hr + 6.5
  let candidates : List (ℝ × ℝ) :=
    [(0, maxy - inward), (maxx - inward, maxy - inward),
     (minx + inward, maxy - inward), (0, (maxy + miny) / 2)]
  match firstInside safePoly candidates with
  | some c => c
  | none =>
      let cent := polygonCentroid pts
      let scan := (List.range 30).map
        (fun step => (cent.1, cent.2 + (maxy - cent.2) * ((step : ℝ) / 30)))
      match firstInside safePoly scan with
      | some c => c
      | none => (0, 16)

/-! ## Symbol contour generators, from src/stl_generator.py -/

/-- Source `_heart_pts`: parametric heart with seed/jitter perturbation,
aspect applied on the y axis. -/
def heartPts (n : ℕ) (aspect jitter : ℝ) (seed : ℕ) : List (ℝ × ℝ) :=
  let nn := max 260 (min 340 n)
  let rnd : ℝ := ((seed % 10000 : ℕ) : ℝ) / 10000
  let base := (List.range nn).map fun (i : ℕ) =>
    let t := 2 * Real.pi * (i : ℝ) / (nn : ℝ)
    let x := 16 * Real.sin t ^ 3
    let y := 13 * Real.cos t - 5 * Real.cos (2 * t) - 2 * Real.cos (3 * t) -
      Real.cos (4 * t)
    let j := (jitter * 0.9) *
      (0.35 * Real.sin (7 * t + 6.0 * rnd) + 0.25 * Real.sin (11 * t + 3.0 * rnd))
    (x * (1.0 + j * 0.08), y * (1.0 + j * 0.08))
  scalePts base 1.0 aspect

/-- Source `_face_outline_pts`: superellipse-like outline; the real-valued
exponents use `Real.rpow`. -/
def faceOutlinePts (n : ℕ) (aspect roundness : ℝ) (seed : ℕ) : List (ℝ × ℝ) :=
  let nn := max 260 (min 340 n)
  let rdn := max 0.25 (min 1.2 roundness)
  let m := max 3.0 (min 12.0 (2.8 + (1.0 / rdn) * 3.2))
  let rnd : ℝ := ((seed % 100000 : ℕ) : ℝ) / 100000
  let phase := 2 * Real.pi * (((seed % 997 : ℕ) : ℝ) / 997)
  let a := (22.0 : ℝ)
  let b := 22.0 * aspect
  (List.range nn).map fun (i : ℕ) =>
    let t := 2 * Real.pi * (i : ℝ) / (nn : ℝ)
    let ct := Real.cos t
    let st := Real.sin t
    let asym := 1.0 + 0.03 * Real.sin (3 * t + phase) +
      0.02 * Real.sin (5 * t + 7 * rnd)
    let denom := (|ct| / (a + 1e-9)) ^ (m : ℝ) + (|st| / (b + 1e-9)) ^ (m : ℝ)
    let r := (1.0 / (denom + 1e-12)) ^ ((1.0 : ℝ) / m)
    (r * ct * asym, r * st * (1.0 - 0.02 * Real.sin (2 * t + phase)))

/-- Source `_starburst_pts`: spike-count harmonic, seed-selected secondary
harmonic, per-lobe weights and jitter noise. -/
def starburstPts (n : ℕ) (spikes : ℤ) (spikiness jitter : ℝ) (seed : ℕ) :
    List (ℝ × ℝ) :=
  let nn := max 260 (min 360 n)
  let sp : ℤ := max 6 (min 16 spikes)
  let spk := max 0.0 (min 1.0 spikiness)
  let jit := max 0.0 (min 1.0 jitter)
  let rnd : ℝ := ((seed % 100000 : ℕ) : ℝ) / 100000
  let phase1 := 2 * Real.pi * (((seed % 997 : ℕ) : ℝ) / 997)
  let phase2 := 2 * Real.pi * (((seed % 611 : ℕ) : ℝ) / 611)
  let k2 : ℤ := sp + 2 + ((seed % 4 : ℕ) : ℤ)
  let spN : ℕ := sp.toNat
  let lobeW : List ℝ := (List.range spN).map fun (i : ℕ) =>
    max 0.85 (min 1.15
      (1.0 + 0.15 * Real.sin (phase2 + (i : ℝ) * (2 * Real.pi / (sp : ℝ)))))
  (List.range nn).map fun (i : ℕ) =>
    let t := 2 * Real.pi * (i : ℝ) / (nn : ℝ)
    let spikeIdx : ℕ := (i * spN / nn) % spN
    let w := lobeW.getD spikeIdx 0
    let w1 := Real.sin ((sp : ℝ) * t + phase1)
    let w2 := 0.45 * Real.sin ((k2 : ℝ) * t + phase2)
    let noise := 0.18 * jit * Real.sin (((sp : ℝ) + 7) * t + 9 * rnd)
    let r := 22.0 * (1.0 + (0.18 + 0.22 * spk) * (w1 + w2) * w) * (1.0 + noise)
    (r * Real.cos t, r * Real.sin t)

/-- Source `_blob_pts`: two seed-selected harmonics, aspect on y. -/
def blobPts (n : ℕ) (aspect roundness jitter : ℝ) (seed : ℕ) : List (ℝ × ℝ) :=
  let nn := max 240 (min 340 n)
  let rdn := max 0.15 (min 1.2 roundness)
  let jit := max 0.0 (min 1.0 jitter)
  let rnd : ℝ := ((seed % 10000 : ℕ) : ℝ) / 10000
  let k1 : ℕ := 4 + seed % 4
  let k2 : ℕ := 7 + seed % 5
  let base := (List.range nn).map fun (i : ℕ) =>
    let t := 2 * Real.pi * (i : ℝ) / (nn : ℝ)
    let wav := (0.22 * (1.0 / rdn)) * Real.sin ((k1 : ℝ) * t + 2.2 * rnd) +
      (0.12 * jit) * Real.sin ((k2 : ℝ) * t + 5.1 * rnd)
    let r := 22.0 * (1.0 + wav)
    (r * Real.cos t, r * Real.sin t)
  scalePts base 1.0 aspect

/-- Source `_bolt_pts`: fixed 11-vertex polyline with seed-derived offsets,
aspect on y. -/
def boltPts (aspect jitter : ℝ) (seed : ℕ) : List (ℝ × ℝ) :=
  let rnd : ℝ := ((seed % 100000 : ℕ) : ℝ) / 100000
  let j := 1.0 + 0.35 * jitter * (rnd - 0.5)
  let dx1 := 2.5 * (rnd - 0.5)
  let dx2 := 3.0 * Real.sin (2 * Real.pi * rnd)
  let dy1 := 2.0 * Real.cos (2 * Real.pi * rnd)
  scalePts
    [(-10 * j + dx1, 20 + dy1), (-2 * j + dx2, 20), (-11 * j, 2 + dy1),
     (2 * j, 2), (-3 * j + dx1, -20), (10 * j + dx2, -2 + dy1), (2 * j, -2),
     (10 * j, 20 + dy1), (0 * j, 20), (0 * j, 26 + dy1), (-14 * j + dx1, 26)]
    1.0 aspect

/-- The transform pipeline as used by `generate_scad_from_spec`: rotate,
then normalize to radius 22. -/
def transformC (pts : List (ℝ × ℝ)) (deg : ℝ) : List (ℝ × ℝ) :=
  normalizeToRadius (rotatePts pts deg) 22

/-- The closed enumeration of symbol variants (spec §3). -/
inductive SymbolVariant
  | heart
  | face
  | starburst
  | bolt
  | blob

/-- The validated parameter bag (spec §3 ShapeParameters). -/
structure Params where
  aspect : ℝ
  roundness : ℝ
  rotation_deg : ℝ
  spikes : ℤ
  spikiness : ℝ
  jitter : ℝ
  mouth_curve : ℝ
  eye_size : ℝ
  mouth_width : ℝ

/-- The contour generator dispatch (spec §4.1 `generate`), with the point
counts each branch of `generate_scad_from_spec` requests left as `n`. -/
def generate (v : SymbolVariant) (q : Params) (seed : ℕ) (n : ℕ) :
    List (ℝ × ℝ) :=
  match v with
  | .heart => heartPts n q.aspect q.jitter seed
  | .face => faceOutlinePts n q.aspect q.roundness seed
  | .starburst => starburstPts n q.spikes q.spikiness q.jitter seed
  | .bolt => boltPts q.aspect q.jitter seed
  | .blob => blobPts n q.aspect q.roundness q.jitter seed

/-! ## Hole-placement search as worded by the specification (for C4) -/

/-- Clamp `x` into `[lo, hi]`, as the spec words it; identical in effect to
the Python `max(lo, min(hi, x))` pattern. -/
def clampR (lo hi x : ℝ) : ℝ := max lo (min hi x)

/-- Hole placement exactly as the claim words it: margin and clamped shrink
factor, shrink toward the vertex-average centroid, the four anchors in
priority order tested by ray casting against the shrunk polygon, then a
30-point scan from the centroid toward the top edge, then `(0, 16)`. -/
def placeHoleSpec (pts : List (ℝ × ℝ)) (hr : ℝ) : ℝ × ℝ :=
  let margin := hr + 3.5
  let factor := clampR 0.60 0.82 (1 - margin / 22)
  let shrunk := shrinkPolygon pts factor
  let inset := hr + 6.5
  let maxy := listMax (pts.map Prod.snd)
  let miny := listMin (pts.map Prod.snd)
  let maxx := listMax (pts.map Prod.fst)
  let minx := listMin (pts.map Prod.fst)
  let topCenter : ℝ × ℝ := (0, maxy - inset)
  let topRight : ℝ × ℝ := (maxx - inset, maxy - inset)
  let topLeft : ℝ × ℝ := (minx + inset, maxy - inset)
  let midCenter : ℝ × ℝ := (0, (maxy + miny) / 2)
  let hit := fun (c : ℝ × ℝ) => pointInPoly c.1 c.2 shrunk
  let cent := polygonCentroid pts
  let scan := (List.range 30).map
    (fun k => (cent.1, cent.2 + (maxy - cent.2) * ((k : ℝ) / 30)))
  (([topCenter, topRight, topLeft, midCenter].find? hit).orElse
    (fun _ => scan.find? hit)).getD (0, 16)

/-! ## Spec-side quantities for the claims' properties -/

/-- Maximum Euclidean distance from the origin over a list of points (the
quantity spec §8 constrains after `transform`). -/
def maxDist (pts : List (ℝ × ℝ)) : ℝ :=
  (pts.map fun p => hypotR p.1 p.2).foldl max 0

/-- Squared distance from `p` to the segment `[a, b]`, via the clamped
projection (formalizing the claim's distance-to-edge clearance; squared so
it stays inside field arithmetic). -/
def distSqToSegment (p a b : ℝ × ℝ) : ℝ :=
  let dx := b.1 - a.1
  let dy := b.2 - a.2
  let l2 := dx ^ 2 + dy ^ 2
  let t := if l2 = 0 then 0
    else clampR 0 1 (((p.1 - a.1) * dx + (p.2 - a.2) * dy) / l2)
  (p.1 - (a.1 + t * dx)) ^ 2 + (p.2 - (a.2 + t * dy)) ^ 2

/-- Squared distance from `p` to the nearest edge of the closed polygon
`poly` (the same edges the ray-casting test walks). -/
def minEdgeDistSq (p : ℝ × ℝ) (poly : List (ℝ × ℝ)) : ℝ :=
  listMin ((edgePairs poly).map fun e => distSqToSegment p e.2 e.1)

/-! ## Parameter validation, from src/llm_contour_ideator.py -/

/-- A raw parameter bag as received from the LLM or the request: any field
may be absent (`none` models a missing key). -/
structure RawParams where
  aspect : Option ℝ
  roundness : Option ℝ
  rotation_deg : Option ℝ
  spikes : Option ℝ
  spikiness : Option ℝ
  jitter : Option ℝ
  mouth_curve : Option ℝ
  eye_size : Option ℝ
  mouth_width : Option ℝ

/-- Python `int(...)` on a float: truncation toward zero. -/
def intTrunc (x : ℝ) : ℤ := if 0 ≤ x then ⌊x⌋ else ⌈x⌉

/-- Python `round(...)` to an int (half-way values cannot occur at its one
call site, see `applySliderBias`). -/
def roundHalf (x : ℝ) : ℤ := ⌊x + 1 / 2⌋

/-- Source `_validate_and_clamp` (the `params` part): every field defaulted
then clamped to its documented range. -/
def validateAndClamp (p : RawParams) : Params where
  aspect := clampR 0.70 1.55 (p.aspect.getD 1.0)
  roundness := clampR 0.15 1.20 (p.roundness.getD 0.7)
  rotation_deg := clampR (-20) 20 (p.rotation_deg.getD 0.0)
  spikes := intTrunc (clampR 6 16 (p.spikes.getD 10))
  spikiness := clampR 0 1 (p.spikiness.getD 0.5)
  jitter := clampR 0 1 (p.jitter.getD 0.3)
  mouth_curve := clampR (-1) 1 (p.mouth_curve.getD (-0.5))
  eye_size := clampR 0.10 0.24 (p.eye_size.getD 0.16)
  mouth_width := clampR 0.35 0.80 (p.mouth_width.getD 0.55)

/-- The five preference sliders (raw integers from the request). -/
structure Prefs where
  joy : ℤ
  sadness : ℤ
  anger : ℤ
  calm : ℤ
  energy : ℤ

/-- Source `_prefs01` for one slider: clamp to `1..10`, then map to `[0,1]`. -/
def pref01 (v : ℤ) : ℝ := (((max 1 (min 10 v) : ℤ) : ℝ) - 1) / 9

/-- Source `_apply_slider_bias`: nudge five fields by the sliders, clamping
each to its range. -/
def applySliderBias (q : Params) (pr : Prefs) : Params :=
  let joy := pref01 pr.joy
  let sadness := pref01 pr.sadness
  let anger := pref01 pr.anger
  let calm := pref01 pr.calm
  let energy := pref01 pr.energy
  { q with
    roundness :=
      clampR 0.15 1.20 (q.roundness + 0.35 * calm + 0.15 * sadness - 0.35 * anger)
    spikiness :=
      clampR 0 1 (q.spikiness + 0.45 * energy + 0.35 * anger - 0.45 * calm)
    spikes :=
      intTrunc (clampR 6 16 (((q.spikes + roundHalf (3 * energy - 1 * calm) : ℤ) : ℝ)))
    jitter :=
      clampR 0 1 (q.jitter + 0.25 * energy + 0.20 * anger - 0.25 * calm)
    mouth_curve :=
      clampR (-1) 1 (q.mouth_curve + 0.75 * joy - 0.90 * sadness) }

/-- Source `_fallback_params`: the deterministic parameter bag used when the
LLM is unavailable, with its per-emotion adjustments. -/
def fallbackParams (seed : ℕ) (emotion : String) : Params :=
  let rnd : ℝ := ((seed % 10000 : ℕ) : ℝ) / 10000
  let base : Params :=
    { aspect := 0.85 + 0.70 * rnd
      roundness := 0.45 + 0.55 * (1 - rnd)
      rotation_deg := ((seed % 41 : ℕ) : ℝ) - 20
      spikes := (8 : ℤ) + ((seed % 9 : ℕ) : ℤ)
      spikiness := 0.25 + 0.65 * rnd
      jitter := 0.15 + 0.65 * (1 - rnd)
      mouth_curve := -0.75 + 1.5 * rnd
      eye_size := 0.12 + 0.10 * rnd
      mouth_width := 0.45 + 0.25 * (1 - rnd) }
  let b1 := if emotion = "depressed" ∨ emotion = "anxious" then
      { base with mouth_curve := -|base.mouth_curve| } else base
  let b2 := if emotion = "love" then
      { b1 with roundness := max 0.65 b1.roundness } else b1
  if emotion = "energetic" ∨ emotion = "joyful" ∨ emotion = "angry" then
    { b2 with spikiness := max 0.55 b2.spikiness, roundness := min 0.55 b2.roundness }
  else b2

/-- The documented inclusive ranges of every ShapeParameters field
(spec §3). -/
def InRangeParams (q : Params) : Prop :=
  0.70 ≤ q.aspect ∧ q.aspect ≤ 1.55 ∧
  0.15 ≤ q.roundness ∧ q.roundness ≤ 1.20 ∧
  -20 ≤ q.rotation_deg ∧ q.rotation_deg ≤ 20 ∧
  6 ≤ q.spikes ∧ q.spikes ≤ 16 ∧
  0 ≤ q.spikiness ∧ q.spikiness ≤ 1 ∧
  0 ≤ q.jitter ∧ q.jitter ≤ 1 ∧
  -1 ≤ q.mouth_curve ∧ q.mouth_curve ≤ 1 ∧
  0.10 ≤ q.eye_size ∧ q.eye_size ≤ 0.24 ∧
  0.35 ≤ q.mouth_width ∧ q.mouth_width ≤ 0.80

/-! ## Solid model emitter, from `generate_scad_from_spec` -/

/-- One entry of the request's `holes` list; `r_mm` may be absent. -/
structure HoleEntry where
  x_mm : ℝ
  y_mm : ℝ
  r_mm : Option ℝ

/-- The part of the request dict that `generate_scad_from_spec` reads.
`holes = none` models an absent or non-list `holes` field. -/
structure SpecInput where
  symbol : Option String
  emotion_tag : Option String
  seed : ℕ
  params : RawParams
  holes : Option (List HoleEntry)
  thickness_mm : Option ℝ

/-- Python `spec.get(k) or default`: `None` and the empty string are falsy. -/
def orDefaultStr (s : Option String) (d : String) : String :=
  match s with
  | none => d
  | some t => if t = "" then d else t

/-- Python `str.lower` (structural model; the keys compared against are
ASCII). -/
def pyLower (s : String) : String := ⟨s.data.map Char.toLower⟩

/-- Python `str.strip` (structural model; ASCII whitespace, which is all the
emitter's comparisons can be affected by). -/
def pyStrip (s : String) : String :=
  ⟨((s.data.dropWhile Char.isWhitespace).reverse.dropWhile Char.isWhitespace).reverse⟩

/-- The emitter's `(spec.get("symbol") or "blob").strip().lower()`. -/
def symbolKey (s : Option String) : String := pyLower (pyStrip (orDefaultStr s "blob"))

/-- The emitter's `(spec.get("emotion_tag") or "neutral").strip().lower()`. -/
def emotionKey (s : Option String) : String :=
  pyLower (pyStrip (orDefaultStr s "neutral"))

/-- The emitter's hole-radius selection: `2.6` unless `holes` is a list with
exactly one entry, whose `r_mm` (default `2.6`) is then used as-is. -/
def holeRadiusOf (holes : Option (List HoleEntry)) : ℝ :=
  match holes with
  | some [h] => h.r_mm.getD 2.6
  | _ => 2.6

/-- The emitter's generator dispatch on the normalized symbol string, with
its per-symbol requested point counts. -/
def buildPts (spec : SpecInput) : List (ℝ × ℝ) :=
  let sym := symbolKey spec.symbol
  let p := spec.params
  let aspect := p.aspect.getD 1.0
  let roundness := p.roundness.getD 0.7
  let spikes := intTrunc (p.spikes.getD 10)
  let spikiness := p.spikiness.getD 0.5
  let jitter := p.jitter.getD 0.3
  if sym = "heart" then heartPts 300 aspect jitter spec.seed
  else if sym = "face" then faceOutlinePts 300 aspect roundness spec.seed
  else if sym = "starburst" then starburstPts 320 spikes spikiness jitter spec.seed
  else if sym = "bolt" then boltPts aspect jitter spec.seed
  else blobPts 300 aspect roundness jitter spec.seed

/-- The contour the emitter extrudes: generated points, rotated, normalized
to radius 22. -/
def emitContour (spec : SpecInput) : List (ℝ × ℝ) :=
  transformC (buildPts spec) (spec.params.rotation_deg.getD 0.0)

/-- The hole center the emitter writes, recomputed by `_pick_hole_center`
from the transformed contour. -/
def emitHoleCenter (spec : SpecInput) : ℝ × ℝ :=
  pickHoleCenter (emitContour spec) (holeRadiusOf spec.holes)

/-- The emitter's smoothing radius `offset_r`: per-emotion-family formula,
then the final `max(0.12, min(1.15, ·))` clamp. -/
def offsetRFor (emotion : String) (roundness : ℝ) : ℝ :=
  let o := if emotion = "energetic" ∨ emotion = "joyful" ∨ emotion = "angry" then
      0.18 + 0.18 * (1.0 - roundness)
    else if emotion = "depressed" ∨ emotion = "calm" ∨ emotion = "anxious" then
      0.65 + 0.35 * roundness
    else 0.35 + 0.25 * roundness
  max 0.12 (min 1.15 o)

/-- The smoothing radius the emitter writes for a given request. -/
def emitOffsetR (spec : SpecInput) : ℝ :=
  offsetRFor (emotionKey spec.emotion_tag) (spec.params.roundness.getD 0.7)

/-- The bolt contour at seed 0, jitter 0, aspect 1.55, evaluated exactly
(`sin 0 = 0`, `cos 0 = 1`, so all offsets are rational). -/
def boltScaled : List (ℝ × ℝ) :=
  [(-11.25, 34.1), (-2, 31), (-11, 6.2), (2, 3.1), (-4.25, -31), (10, 0),
   (2, -3.1), (10, 34.1), (0, 31), (0, 43.4), (-15.25, 40.3)]

/-- The transform of the bolt contour at seed 0, jitter 0, aspect 1.55,
rotation 0, computed exactly: the maximum radius of the scaled bolt is
exactly `43.4 = √(0² + 43.4²)`, so the normalization scale is the rational
`22/43.4` and every rounded coordinate is an exact 4-decimal rational. -/
def boltNormalized : List (ℝ × ℝ) :=
  [(-5.7028, 17.2857), (-1.0138, 15.7143), (-5.576, 3.1429), (1.0138, 1.5714),
   (-2.1544, -15.7143), (5.0691, 0), (1.0138, -1.5714), (5.0691, 17.2857),
   (0, 15.7143), (0, 22), (-7.7304, 20.4286)]

end

/-! ## Helper lemmas -/

lemma if_gt_eq_max (m r : ℝ) : (if r > m then r else m) = max m r := by
  rcases le_or_lt r m with h | h
  · rw [if_neg (not_lt.mpr h), max_eq_left h]
  · rw [if_pos h, max_eq_right h.le]

lemma maxRadius_eq_foldl (pts : List (ℝ × ℝ)) :
    maxRadius pts = (pts.map fun p => hypotR p.1 p.2).foldl max 1e-9 := by
  rw [maxRadius, List.foldl_map]
  congr 1
  funext m p
  exact (if_gt_eq_max m (hypotR p.1 p.2)).symm ▸ rfl

lemma le_foldl_max_init (l : List ℝ) (a : ℝ) : a ≤ l.foldl max a := by
  induction l generalizing a with
  | nil => exact le_refl a
  | cons x xs ih => exact le_trans (le_max_left a x) (ih (max a x))

lemma le_foldl_max_mem (l : List ℝ) (a x : ℝ) (hx : x ∈ l) : x ≤ l.foldl max a := by
  induction l generalizing a with
  | nil => cases hx
  | cons y ys ih =>
    rcases List.mem_cons.mp hx with h | h
    · subst h
      exact le_trans (le_max_right a x) (le_foldl_max_init ys _)
    · exact ih _ h

lemma foldl_max_le (l : List ℝ) (a b : ℝ) (ha : a ≤ b) (h : ∀ x ∈ l, x ≤ b) :
    l.foldl max a ≤ b := by
  induction l generalizing a with
  | nil => exact ha
  | cons y ys ih =>
    exact ih _ (max_le ha (h y (List.mem_cons_self y ys)))
      (fun x hx => h x (List.mem_cons_of_mem _ hx))

lemma foldl_max_attained (l : List ℝ) (a : ℝ) :
    l.foldl max a = a ∨ ∃ x ∈ l, l.foldl max a = x := by
  induction l generalizing a with
  | nil => exact Or.inl rfl
  | cons y ys ih =>
    rcases ih (max a y) with h | ⟨x, hx, hfx⟩
    · rcases le_or_lt y a with hya | hya
      · exact Or.inl (by rw [List.foldl_cons, h, max_eq_left hya])
      · exact Or.inr ⟨y, List.mem_cons_self y ys,
          by rw [List.foldl_cons, h, max_eq_right hya.le]⟩
    · exact Or.inr ⟨x, List.mem_cons_of_mem _ hx, by rw [List.foldl_cons]; exact hfx⟩

lemma round4_near (x : ℝ) : |round4 x - x| ≤ 5e-5 := by
  have h1 : ((⌊x * 10000 + 1 / 2⌋ : ℤ) : ℝ) ≤ x * 10000 + 1 / 2 := Int.floor_le _
  have h2 : x * 10000 + 1 / 2 - 1 < ((⌊x * 10000 + 1 / 2⌋ : ℤ) : ℝ) :=
    Int.sub_one_lt_floor _
  rw [round4, abs_le]
  constructor <;> linarith

lemma hypotR_nonneg (x y : ℝ) : 0 ≤ hypotR x y := Real.sqrt_nonneg _

lemma hypotR_le_of_sq_le (x y b : ℝ) (hb : 0 ≤ b) (h : x ^ 2 + y ^ 2 ≤ b ^ 2) :
    hypotR x y ≤ b := by
  rw [hypotR]
  calc Real.sqrt (x ^ 2 + y ^ 2) ≤ Real.sqrt (b ^ 2) := Real.sqrt_le_sqrt h
    _ = b := Real.sqrt_sq hb

lemma hypotR_eq_of_sq (x y b : ℝ) (hb : 0 ≤ b) (h : x ^ 2 + y ^ 2 = b ^ 2) :
    hypotR x y = b := by
  rw [hypotR, h, Real.sqrt_sq hb]

lemma hypotR_add_le (a b u v : ℝ) :
    hypotR (a + u) (b + v) ≤ hypotR a b + hypotR u v := by
  have hA : (0 : ℝ) ≤ Real.sqrt (a ^ 2 + b ^ 2) := Real.sqrt_nonneg _
  have hB : (0 : ℝ) ≤ Real.sqrt (u ^ 2 + v ^ 2) := Real.sqrt_nonneg _
  have hA2 : Real.sqrt (a ^ 2 + b ^ 2) ^ 2 = a ^ 2 + b ^ 2 :=
    Real.sq_sqrt (by positivity)
  have hB2 : Real.sqrt (u ^ 2 + v ^ 2) ^ 2 = u ^ 2 + v ^ 2 :=
    Real.sq_sqrt (by positivity)
  have key : a * u + b * v ≤ Real.sqrt (a ^ 2 + b ^ 2) * Real.sqrt (u ^ 2 + v ^ 2) := by
    have h1 : a * u + b * v ≤ |a * u + b * v| := le_abs_self _
    have h2 : |a * u + b * v| = Real.sqrt ((a * u + b * v) ^ 2) :=
      (Real.sqrt_sq_eq_abs _).symm
    have h3 : Real.sqrt ((a * u + b * v) ^ 2) ≤
        Real.sqrt ((a ^ 2 + b ^ 2) * (u ^ 2 + v ^ 2)) :=
      Real.sqrt_le_sqrt (by nlinarith [sq_nonneg (a * v - b * u)])
    have h4 : Real.sqrt ((a ^ 2 + b ^ 2) * (u ^ 2 + v ^ 2)) =
        Real.sqrt (a ^ 2 + b ^ 2) * Real.sqrt (u ^ 2 + v ^ 2) :=
      Real.sqrt_mul (by positivity) _
    linarith [h2 ▸ h4 ▸ h3, h1]
  have hsum : (a + u) ^ 2 + (b + v) ^ 2 ≤
      (Real.sqrt (a ^ 2 + b ^ 2) + Real.sqrt (u ^ 2 + v ^ 2)) ^ 2 := by
    nlinarith [key, hA2, hB2]
  rw [hypotR, hypotR, hypotR]
  calc Real.sqrt ((a + u) ^ 2 + (b + v) ^ 2)
      ≤ Real.sqrt ((Real.sqrt (a ^ 2 + b ^ 2) + Real.sqrt (u ^ 2 + v ^ 2)) ^ 2) :=
        Real.sqrt_le_sqrt hsum
    _ = _ := Real.sqrt_sq (by positivity)

lemma hypotR_le_abs_add (u v : ℝ) : hypotR u v ≤ |u| + |v| := by
  refine hypotR_le_of_sq_le u v _ (by positivity) ?_
  nlinarith [mul_nonneg (abs_nonneg u) (abs_nonneg v), sq_abs u, sq_abs v]

lemma hypotR_lipschitz (x y x' y' : ℝ) :
    |hypotR x' y' - hypotR x y| ≤ |x' - x| + |y' - y| := by
  rw [abs_sub_le_iff]
  constructor
  · have h := hypotR_add_le x y (x' - x) (y' - y)
    rw [show x + (x' - x) = x' from by ring, show y + (y' - y) = y' from by ring] at h
    have h2 := hypotR_le_abs_add (x' - x) (y' - y)
    linarith
  · have h := hypotR_add_le x' y' (x - x') (y - y')
    rw [show x' + (x - x') = x from by ring, show y' + (y - y') = y from by ring] at h
    have h2 := hypotR_le_abs_add (x - x') (y - y')
    rw [abs_sub_comm x x', abs_sub_comm y y'] at h2
    linarith

lemma hypotR_smul (s x y : ℝ) (hs : 0 ≤ s) : hypotR (x * s) (y * s) = s * hypotR x y := by
  rw [hypotR, hypotR, show (x * s) ^ 2 + (y * s) ^ 2 = s ^ 2 * (x ^ 2 + y ^ 2) from by ring,
    Real.sqrt_mul (sq_nonneg s), Real.sqrt_sq hs]

lemma hypotR_rotate (c s x y : ℝ) (h : s ^ 2 + c ^ 2 = 1) :
    hypotR (x * c - y * s) (x * s + y * c) = hypotR x y := by
  rw [hypotR, hypotR]
  congr 1
  linear_combination (x ^ 2 + y ^ 2) * h

lemma hypotR_zero : hypotR (0 : ℝ) 0 = 0 := by
  rw [hypotR]
  norm_num

/-! ## C2 — degenerate normalization -/

/-- C2 counterexample: on the degenerate contour all of whose points are the
origin, `_normalize_to_radius` does not fail.  The `1e-9` floor on the
maximum radius silently yields the all-zero contour, so no
`DegenerateGeometry` error reaches the caller, contrary to the claim. -/
theorem C2_counterexample :
    normalizeToRadius [((0 : ℝ), (0 : ℝ))] 22 = [((0 : ℝ), (0 : ℝ))] := by
  norm_num [normalizeToRadius, maxRadius, hypotR, round4, List.foldl]

/-- C2 amended: normalization of a degenerate contour (every point at the
origin) does not raise an error; because the running maximum starts at
`1e-9` the division is by `1e-9`, and the all-zero contour is silently
returned. -/
theorem C2_degenerate_silent (pts : List (ℝ × ℝ)) (h : ∀ p ∈ pts, p = (0, 0)) :
    normalizeToRadius pts 22 = pts.map fun _ => ((0 : ℝ), (0 : ℝ)) := by
  have hmax : maxRadius pts = 1e-9 := by
    rw [maxRadius]
    induction pts with
    | nil => rfl
    | cons p ps ih =>
      have hp : p = (0, 0) := h p (List.mem_cons_self _ _)
      rw [List.foldl_cons, hp]
      have hstep : (if hypotR ((0 : ℝ), (0 : ℝ)).1 ((0 : ℝ), (0 : ℝ)).2 > (1e-9 : ℝ)
          then hypotR ((0 : ℝ), (0 : ℝ)).1 ((0 : ℝ), (0 : ℝ)).2 else (1e-9 : ℝ)) =
          1e-9 := by
        norm_num [hypotR]
      rw [hstep]
      exact ih (fun q hq => h q (List.mem_cons_of_mem _ hq))
  rw [normalizeToRadius, hmax]
  refine List.map_congr_left (fun p hp => ?_)
  rw [h p hp]
  show (round4 ((0 : ℝ) * (22 / 1e-9)), round4 ((0 : ℝ) * (22 / 1e-9))) = ((0 : ℝ), (0 : ℝ))
  norm_num [round4]

/-- Witness for C2's amended theorem at the one-point degenerate contour. -/
theorem C2_witness :
    (∀ p ∈ [((0 : ℝ), (0 : ℝ))], p = ((0 : ℝ), (0 : ℝ))) ∧
    normalizeToRadius [((0 : ℝ), (0 : ℝ))] 22 =
      [((0 : ℝ), (0 : ℝ))].map fun _ => ((0 : ℝ), (0 : ℝ)) :=
  ⟨by simp, C2_degenerate_silent _ (by simp)⟩

/-! ## C5 — smoothing radius ranges -/

/-- C5 counterexample: at the valid clamped roundness `1.2`, every one of
the three claimed per-family ranges fails: the sharp family yields `0.144`
(below `0.18`), the rounder family `1.07` (above `1.00`), the moderate
family `0.65` (above `0.60`). -/
theorem C5_counterexample :
    ¬ (0.18 ≤ offsetRFor "angry" 1.2 ∧ offsetRFor "angry" 1.2 ≤ 0.36) ∧
    ¬ (0.65 ≤ offsetRFor "calm" 1.2 ∧ offsetRFor "calm" 1.2 ≤ 1.00) ∧
    ¬ (0.35 ≤ offsetRFor "neutral" 1.2 ∧ offsetRFor "neutral" 1.2 ≤ 0.60) := by
  have ha : offsetRFor "angry" 1.2 = 0.144 := by
    rw [offsetRFor, if_pos (Or.inr (Or.inr rfl))]
    norm_num [min_def, max_def]
  have hb : offsetRFor "calm" 1.2 = 1.07 := by
    rw [offsetRFor, if_neg (by decide), if_pos (Or.inr (Or.inl rfl))]
    norm_num [min_def, max_def]
  have hc : offsetRFor "neutral" 1.2 = 0.65 := by
    rw [offsetRFor, if_neg (by decide), if_neg (by decide)]
    norm_num [min_def, max_def]
  rw [ha, hb, hc]
  norm_num

/-- C5 amended: for roundness in the documented clamped range `[0.15, 1.2]`,
the emitted smoothing radius lies in `[0.144, 0.333]` for the sharp family
{energetic, joyful, angry}, in `[0.7025, 1.07]` for the rounder family
{depressed, calm, anxious}, and in `[0.3875, 0.65]` otherwise (the final
`max(0.12, min(1.15, ·))` clamp never binds on these ranges). -/
theorem C5_offsetR_ranges (e : String) (r : ℝ) (h1 : 0.15 ≤ r) (h2 : r ≤ 1.2) :
    ((e = "energetic" ∨ e = "joyful" ∨ e = "angry") →
      0.144 ≤ offsetRFor e r ∧ offsetRFor e r ≤ 0.333) ∧
    ((e = "depressed" ∨ e = "calm" ∨ e = "anxious") →
      0.7025 ≤ offsetRFor e r ∧ offsetRFor e r ≤ 1.07) ∧
    (¬ (e = "energetic" ∨ e = "joyful" ∨ e = "angry") →
      ¬ (e = "depressed" ∨ e = "calm" ∨ e = "anxious") →
      0.3875 ≤ offsetRFor e r ∧ offsetRFor e r ≤ 0.65) := by
  refine ⟨fun he => ?_, fun he => ?_, fun he1 he2 => ?_⟩
  · rw [offsetRFor]
    rw [if_pos he]
    rw [min_eq_right (by linarith), max_eq_right (by linarith)]
    constructor <;> linarith
  · have hne : ¬ (e = "energetic" ∨ e = "joyful" ∨ e = "angry") := by
      rcases he with h | h | h <;> subst h <;> decide
    rw [offsetRFor, if_neg hne, if_pos he]
    rw [min_eq_right (by linarith), max_eq_right (by linarith)]
    constructor <;> linarith
  · rw [offsetRFor, if_neg he1, if_neg he2]
    rw [min_eq_right (by linarith), max_eq_right (by linarith)]
    constructor <;> linarith

/-- Witness for C5's amended theorem: emotion "calm" with roundness 0.7. -/
theorem C5_witness :
    0.7025 ≤ offsetRFor "calm" 0.7 ∧ offsetRFor "calm" 0.7 ≤ 1.07 :=
  (C5_offsetR_ranges "calm" 0.7 (by norm_num) (by norm_num)).2.1
    (Or.inr (Or.inl rfl))

/-! ## C4 — the placement algorithm follows the claimed steps -/

lemma firstInside_eq_find (safePoly l : List (ℝ × ℝ)) :
    firstInside safePoly l = l.find? (fun c => pointInPoly c.1 c.2 safePoly) := by
  induction l with
  | nil => rfl
  | cons c rest ih =>
    by_cases h : pointInPoly c.1 c.2 safePoly
    · rw [firstInside, if_pos h, List.find?_cons_of_pos _ (by simpa using h)]
    · rw [firstInside, if_neg h, List.find?_cons_of_neg _ (by simpa using h), ih]

/-- C4: the hole placement search performs exactly the claimed steps —
margin `hr + 3.5`, shrink factor clamped to `[0.60, 0.82]`, shrink toward
the vertex-average centroid, the four anchors (top-center, top-right,
top-left, vertical-mid-center, each inset by `hr + 6.5` from the relevant
bounding-box extreme of the input contour) tested in order by ray casting
against the shrunk polygon, then a 30-point scan from the centroid toward
the top edge, then the fixed non-failing fallback `(0, 16)`. -/
theorem C4_placement_algorithm (pts : List (ℝ × ℝ)) (hr : ℝ) :
    pickHoleCenter pts hr = placeHoleSpec pts hr := by
  simp only [pickHoleCenter, placeHoleSpec, safePolyOf, holeShrinkFactor, clampR,
    firstInside_eq_find]
  split
  · next c hc =>
      rw [hc]
      rfl
  · next hc =>
      rw [hc]
      split
      · next c hc2 =>
          rw [hc2]
          rfl
      · next hc2 =>
          rw [hc2]
          rfl

/-! ## C6 — parameter clamping invariant -/

lemma clampR_bounds (lo hi x : ℝ) (h : lo ≤ hi) :
    lo ≤ clampR lo hi x ∧ clampR lo hi x ≤ hi :=
  ⟨le_max_left lo _, max_le h (min_le_left hi x)⟩

lemma intTrunc_bounds (x : ℝ) (lo hi : ℤ) (h0 : (0 : ℝ) ≤ (lo : ℝ))
    (h1 : (lo : ℝ) ≤ x) (h2 : x ≤ (hi : ℝ)) :
    lo ≤ intTrunc x ∧ intTrunc x ≤ hi := by
  rw [intTrunc, if_pos (le_trans h0 h1)]
  refine ⟨Int.le_floor.mpr h1, ?_⟩
  have h3 : (⌊x⌋ : ℤ) ≤ ⌊(hi : ℝ)⌋ := Int.floor_le_floor h2
  rwa [Int.floor_intCast] at h3

lemma validate_inRange (p : RawParams) : InRangeParams (validateAndClamp p) := by
  simp only [InRangeParams, validateAndClamp]
  refine ⟨?_, ?_, ?_, ?_, ?_, ?_, ?_, ?_, ?_, ?_, ?_, ?_, ?_, ?_, ?_, ?_, ?_, ?_⟩
  · exact (clampR_bounds 0.70 1.55 _ (by norm_num)).1
  · exact (clampR_bounds 0.70 1.55 _ (by norm_num)).2
  · exact (clampR_bounds 0.15 1.20 _ (by norm_num)).1
  · exact (clampR_bounds 0.15 1.20 _ (by norm_num)).2
  · exact (clampR_bounds (-20) 20 _ (by norm_num)).1
  · exact (clampR_bounds (-20) 20 _ (by norm_num)).2
  · exact (intTrunc_bounds _ 6 16 (by norm_num)
      (by exact_mod_cast (clampR_bounds 6 16 (p.spikes.getD 10) (by norm_num)).1)
      (by exact_mod_cast (clampR_bounds 6 16 (p.spikes.getD 10) (by norm_num)).2)).1
  · exact (intTrunc_bounds _ 6 16 (by norm_num)
      (by exact_mod_cast (clampR_bounds 6 16 (p.spikes.getD 10) (by norm_num)).1)
      (by exact_mod_cast (clampR_bounds 6 16 (p.spikes.getD 10) (by norm_num)).2)).2
  · exact (clampR_bounds 0 1 _ (by norm_num)).1
  · exact (clampR_bounds 0 1 _ (by norm_num)).2
  · exact (clampR_bounds 0 1 _ (by norm_num)).1
  · exact (clampR_bounds 0 1 _ (by norm_num)).2
  · exact (clampR_bounds (-1) 1 _ (by norm_num)).1
  · exact (clampR_bounds (-1) 1 _ (by norm_num)).2
  · exact (clampR_bounds 0.10 0.24 _ (by norm_num)).1
  · exact (clampR_bounds 0.10 0.24 _ (by norm_num)).2
  · exact (clampR_bounds 0.35 0.80 _ (by norm_num)).1
  · exact (clampR_bounds 0.35 0.80 _ (by norm_num)).2

lemma bias_preserves (q : Params) (pr : Prefs) (hq : InRangeParams q) :
    InRangeParams (applySliderBias q pr) := by
  obtain ⟨h1, h2, h3, h4, h5, h6, h7, h8, h9, h10, h11, h12, h13, h14, h15, h16,
    h17, h18⟩ := hq
  simp only [InRangeParams, applySliderBias]
  refine ⟨h1, h2, ?_, ?_, h5, h6, ?_, ?_, ?_, ?_, ?_, ?_, ?_, ?_, h15, h16, h17, h18⟩
  · exact (clampR_bounds 0.15 1.20 _ (by norm_num)).1
  · exact (clampR_bounds 0.15 1.20 _ (by norm_num)).2
  · exact (intTrunc_bounds _ 6 16 (by norm_num)
      (by exact_mod_cast (clampR_bounds 6 16 _ (by norm_num)).1)
      (by exact_mod_cast (clampR_bounds 6 16 _ (by norm_num)).2)).1
  · exact (intTrunc_bounds _ 6 16 (by norm_num)
      (by exact_mod_cast (clampR_bounds 6 16 _ (by norm_num)).1)
      (by exact_mod_cast (clampR_bounds 6 16 _ (by norm_num)).2)).2
  · exact (clampR_bounds 0 1 _ (by norm_num)).1
  · exact (clampR_bounds 0 1 _ (by norm_num)).2
  · exact (clampR_bounds 0 1 _ (by norm_num)).1
  · exact (clampR_bounds 0 1 _ (by norm_num)).2
  · exact (clampR_bounds (-1) 1 _ (by norm_num)).1
  · exact (clampR_bounds (-1) 1 _ (by norm_num)).2

set_option maxHeartbeats 1000000 in
lemma fallback_inRange (seed : ℕ) (emo : String) :
    InRangeParams (fallbackParams seed emo) := by
  have hr0 : (0 : ℝ) ≤ ((seed % 10000 : ℕ) : ℝ) / 10000 := by positivity
  have hr1 : ((seed % 10000 : ℕ) : ℝ) / 10000 ≤ 0.9999 := by
    have hm : (seed % 10000 : ℕ) ≤ 9999 := by omega
    have hm2 : ((seed % 10000 : ℕ) : ℝ) ≤ 9999 := by exact_mod_cast hm
    linarith
  have hrot0 : (0 : ℝ) ≤ ((seed % 41 : ℕ) : ℝ) := by positivity
  have hrot1 : ((seed % 41 : ℕ) : ℝ) ≤ 40 := by
    have hm : (seed % 41 : ℕ) ≤ 40 := by omega
    exact_mod_cast hm
  have hsp0 : (0 : ℤ) ≤ ((seed % 9 : ℕ) : ℤ) := Int.natCast_nonneg _
  have hsp1 : ((seed % 9 : ℕ) : ℤ) ≤ 8 := by
    have hm : (seed % 9 : ℕ) ≤ 8 := by omega
    exact_mod_cast hm
  simp only [InRangeParams, fallbackParams]
  generalize hR : ((seed % 10000 : ℕ) : ℝ) / 10000 = r at hr0 hr1 ⊢
  generalize hRot : ((seed % 41 : ℕ) : ℝ) = rot at hrot0 hrot1 ⊢
  generalize hSp : ((seed % 9 : ℕ) : ℤ) = sp at hsp0 hsp1 ⊢
  have habs : |(-0.75 : ℝ) + 1.5 * r| ≤ 0.75 :=
    abs_le.mpr ⟨by linarith, by linarith⟩
  split_ifs <;> dsimp only <;>
    refine ⟨?_, ?_, ?_, ?_, ?_, ?_, ?_, ?_, ?_, ?_, ?_, ?_, ?_, ?_, ?_, ?_, ?_, ?_⟩ <;>
    first
      | linarith
      | exact le_min (by norm_num) (by linarith)
      | exact le_min (by norm_num) (le_trans (by norm_num) (le_max_left _ _))
      | exact le_trans (min_le_left _ _) (by norm_num)
      | exact le_trans (by norm_num) (le_max_left _ _)
      | exact max_le (by norm_num) (by linarith)
      | exact le_trans (neg_nonpos.mpr (abs_nonneg _)) (by norm_num)

/-- C6: every ShapeParameters field is clamped to its documented inclusive
range before any generator or the emitter uses it.  Both producer paths of
the ideator are total and yield an in-range bag: the LLM path
(`_validate_and_clamp` then `_apply_slider_bias`) for every raw input, and
the fallback path (`_fallback_params` then `_apply_slider_bias`) for every
seed and emotion — so out-of-range input is corrected, never rejected, and
the emitter never receives an unclamped value. -/
theorem C6_params_clamped (p : RawParams) (pr : Prefs) (seed : ℕ) (emo : String) :
    InRangeParams (applySliderBias (validateAndClamp p) pr) ∧
    InRangeParams (applySliderBias (fallbackParams seed emo) pr) :=
  ⟨bias_preserves _ _ (validate_inRange p),
   bias_preserves _ _ (fallback_inRange seed emo)⟩

/-! ## C3 — normalized maximum radius -/

/-- C3 counterexample: the four-point contour at distance `1e-12` from the
origin is non-degenerate in the claim's sense (its points are not at the
origin), yet after rotation by 0 and normalization the maximum distance is
`0.022`, far outside `22 ± 1e-3·22`: the `1e-9` floor of the running
maximum makes the scale `22/1e-9` instead of `22/1e-12`. -/
theorem C3_counterexample :
    ¬ (|maxDist (transformC
          [((1e-12 : ℝ), 0), ((0 : ℝ), 1e-12), (-1e-12, 0), ((0 : ℝ), -1e-12)] 0)
        - 22| ≤ 1e-3 * 22) := by
  have e1 : hypotR (1e-12 : ℝ) 0 = 1e-12 := hypotR_eq_of_sq _ _ _ (by norm_num) (by norm_num)
  have e2 : hypotR (0 : ℝ) (1e-12) = 1e-12 := hypotR_eq_of_sq _ _ _ (by norm_num) (by norm_num)
  have e3 : hypotR (-1e-12 : ℝ) 0 = 1e-12 := hypotR_eq_of_sq _ _ _ (by norm_num) (by norm_num)
  have e4 : hypotR (0 : ℝ) (-1e-12) = 1e-12 := hypotR_eq_of_sq _ _ _ (by norm_num) (by norm_num)
  have hrot : rotatePts [((1e-12 : ℝ), 0), ((0 : ℝ), 1e-12), (-1e-12, 0), ((0 : ℝ), -1e-12)] 0
      = [((1e-12 : ℝ), 0), ((0 : ℝ), 1e-12), (-1e-12, 0), ((0 : ℝ), -1e-12)] := by
    norm_num [rotatePts, Real.cos_zero, Real.sin_zero]
  have hmax : maxRadius [((1e-12 : ℝ), 0), ((0 : ℝ), 1e-12), (-1e-12, 0), ((0 : ℝ), -1e-12)]
      = 1e-9 := by
    rw [maxRadius]
    simp only [List.foldl_cons, List.foldl_nil]
    rw [e1, e2, e3, e4]
    norm_num
  have hout : transformC
      [((1e-12 : ℝ), 0), ((0 : ℝ), 1e-12), (-1e-12, 0), ((0 : ℝ), -1e-12)] 0
      = [((0.022 : ℝ), 0), ((0 : ℝ), 0.022), (-0.022, 0), ((0 : ℝ), -0.022)] := by
    rw [transformC, hrot, normalizeToRadius, hmax]
    norm_num [round4]
  have f1 : hypotR (0.022 : ℝ) 0 = 0.022 := hypotR_eq_of_sq _ _ _ (by norm_num) (by norm_num)
  have f2 : hypotR (0 : ℝ) (0.022) = 0.022 := hypotR_eq_of_sq _ _ _ (by norm_num) (by norm_num)
  have f3 : hypotR (-0.022 : ℝ) 0 = 0.022 := hypotR_eq_of_sq _ _ _ (by norm_num) (by norm_num)
  have f4 : hypotR (0 : ℝ) (-0.022) = 0.022 := hypotR_eq_of_sq _ _ _ (by norm_num) (by norm_num)
  intro hcontra
  rw [hout, maxDist] at hcontra
  simp only [List.map_cons, List.map_nil, List.foldl_cons, List.foldl_nil] at hcontra
  rw [f1, f2, f3, f4] at hcontra
  rw [show max (max (max (max (0 : ℝ) 0.022) 0.022) 0.022) 0.022 = 0.022 from by
    norm_num [max_def]] at hcontra
  rw [abs_of_nonpos (by norm_num : (0.022 : ℝ) - 22 ≤ 0)] at hcontra
  linarith

set_option maxHeartbeats 1000000 in
/-- C3 amended: for every input contour containing a point at distance at
least `1e-9` from the origin (so the source's `1e-9` floor on the running
maximum is inactive), the transform's output has maximum distance from the
origin equal to 22 within `1e-3` relative tolerance — the 4-decimal
rounding moves each norm by at most `1e-4`. -/
theorem C3_transform_radius (pts : List (ℝ × ℝ)) (deg : ℝ)
    (h : ∃ p ∈ pts, 1e-9 ≤ hypotR p.1 p.2) :
    |maxDist (transformC pts deg) - 22| ≤ 1e-3 * 22 := by
  obtain ⟨p₀, hp₀m, hp₀⟩ := h
  have hcs : Real.sin (deg * Real.pi / 180) ^ 2 + Real.cos (deg * Real.pi / 180) ^ 2
      = 1 := Real.sin_sq_add_cos_sq _
  -- the rotated contour and the rotated image of p₀
  have hq₀mem : (p₀.1 * Real.cos (deg * Real.pi / 180) - p₀.2 * Real.sin (deg * Real.pi / 180),
      p₀.1 * Real.sin (deg * Real.pi / 180) + p₀.2 * Real.cos (deg * Real.pi / 180))
      ∈ rotatePts pts deg := by
    rw [rotatePts]
    exact List.mem_map_of_mem _ hp₀m
  have hq₀norm : hypotR (p₀.1 * Real.cos (deg * Real.pi / 180) -
        p₀.2 * Real.sin (deg * Real.pi / 180))
      (p₀.1 * Real.sin (deg * Real.pi / 180) + p₀.2 * Real.cos (deg * Real.pi / 180))
      = hypotR p₀.1 p₀.2 := hypotR_rotate _ _ _ _ hcs
  set l := rotatePts pts deg with hl
  clear_value l
  have hM_eq := maxRadius_eq_foldl l
  have hub : ∀ p ∈ l, hypotR p.1 p.2 ≤ maxRadius l := by
    intro p hp
    rw [hM_eq]
    exact le_foldl_max_mem _ _ _ (List.mem_map_of_mem _ hp)
  have hM9 : (1e-9 : ℝ) ≤ maxRadius l := by
    rw [hM_eq]
    exact le_foldl_max_init _ _
  have hMpos : (0 : ℝ) < maxRadius l := by
    have : (0 : ℝ) < 1e-9 := by norm_num
    linarith
  -- the maximum is attained at some point of the rotated contour
  have hatt : ∃ pm ∈ l, hypotR pm.1 pm.2 = maxRadius l := by
    rcases foldl_max_attained (l.map fun p => hypotR p.1 p.2) 1e-9 with hcase | hcase
    · refine ⟨_, hq₀mem, ?_⟩
      have h1 : hypotR (p₀.1 * Real.cos (deg * Real.pi / 180) -
            p₀.2 * Real.sin (deg * Real.pi / 180))
          (p₀.1 * Real.sin (deg * Real.pi / 180) +
            p₀.2 * Real.cos (deg * Real.pi / 180)) ≤ maxRadius l :=
        hub (p₀.1 * Real.cos (deg * Real.pi / 180) - p₀.2 * Real.sin (deg * Real.pi / 180),
          p₀.1 * Real.sin (deg * Real.pi / 180) + p₀.2 * Real.cos (deg * Real.pi / 180))
          hq₀mem
      have h2 : maxRadius l = 1e-9 := by rw [hM_eq, hcase]
      show hypotR (p₀.1 * Real.cos (deg * Real.pi / 180) -
            p₀.2 * Real.sin (deg * Real.pi / 180))
          (p₀.1 * Real.sin (deg * Real.pi / 180) +
            p₀.2 * Real.cos (deg * Real.pi / 180)) = maxRadius l
      rw [hq₀norm] at h1
      rw [hq₀norm]
      linarith
    · obtain ⟨x, hx, hfx⟩ := hcase
      obtain ⟨pm, hpm, hpm_eq⟩ := List.mem_map.mp hx
      refine ⟨pm, hpm, ?_⟩
      rw [hM_eq, hfx, ← hpm_eq]
  obtain ⟨pm, hpm_mem, hpm⟩ := hatt
  -- scale properties
  have hscM : 22 / maxRadius l * maxRadius l = 22 := div_mul_cancel₀ _ (ne_of_gt hMpos)
  have hsc0 : (0 : ℝ) ≤ 22 / maxRadius l := by positivity
  -- per-point bound on the rounded norms
  have hbound : ∀ p ∈ l,
      |hypotR (round4 (p.1 * (22 / maxRadius l))) (round4 (p.2 * (22 / maxRadius l)))
        - 22 / maxRadius l * hypotR p.1 p.2| ≤ 1e-4 := by
    intro p hp
    have h1 := hypotR_lipschitz (p.1 * (22 / maxRadius l)) (p.2 * (22 / maxRadius l))
      (round4 (p.1 * (22 / maxRadius l))) (round4 (p.2 * (22 / maxRadius l)))
    have h2 := round4_near (p.1 * (22 / maxRadius l))
    have h3 := round4_near (p.2 * (22 / maxRadius l))
    have h4 : hypotR (p.1 * (22 / maxRadius l)) (p.2 * (22 / maxRadius l))
        = 22 / maxRadius l * hypotR p.1 p.2 := hypotR_smul _ _ _ hsc0
    rw [h4] at h1
    calc |hypotR (round4 (p.1 * (22 / maxRadius l))) (round4 (p.2 * (22 / maxRadius l)))
        - 22 / maxRadius l * hypotR p.1 p.2| ≤
        |round4 (p.1 * (22 / maxRadius l)) - p.1 * (22 / maxRadius l)| +
        |round4 (p.2 * (22 / maxRadius l)) - p.2 * (22 / maxRadius l)| := h1
      _ ≤ 1e-4 := by linarith
  -- the output is the map of the rounded scaling over `l`
  have hout : transformC pts deg =
      l.map fun p => (round4 (p.1 * (22 / maxRadius l)), round4 (p.2 * (22 / maxRadius l))) := by
    rw [transformC, ← hl]
    rfl
  rw [hout, maxDist, List.map_map]
  have hcomp : ((fun p : ℝ × ℝ => hypotR p.1 p.2) ∘
      fun p : ℝ × ℝ => (round4 (p.1 * (22 / maxRadius l)), round4 (p.2 * (22 / maxRadius l))))
      = fun p : ℝ × ℝ =>
        hypotR (round4 (p.1 * (22 / maxRadius l))) (round4 (p.2 * (22 / maxRadius l))) := rfl
  rw [hcomp]
  have hup : ∀ x ∈ l.map fun p =>
      hypotR (round4 (p.1 * (22 / maxRadius l))) (round4 (p.2 * (22 / maxRadius l))),
      x ≤ 22 + 1e-4 := by
    intro x hx
    obtain ⟨p, hp, rfl⟩ := List.mem_map.mp hx
    have hb := hbound p hp
    have hle : 22 / maxRadius l * hypotR p.1 p.2 ≤ 22 := by
      have := mul_le_mul_of_nonneg_left (hub p hp) hsc0
      rw [hscM] at this
      exact this
    have := abs_le.mp hb
    linarith [this.1, this.2]
  have hlow : 22 - 1e-4 ≤
      (l.map fun p =>
        hypotR (round4 (p.1 * (22 / maxRadius l))) (round4 (p.2 * (22 / maxRadius l)))).foldl
        max 0 := by
    have hmemb : hypotR (round4 (pm.1 * (22 / maxRadius l))) (round4 (pm.2 * (22 / maxRadius l)))
        ∈ l.map fun p =>
          hypotR (round4 (p.1 * (22 / maxRadius l))) (round4 (p.2 * (22 / maxRadius l))) :=
      List.mem_map_of_mem _ hpm_mem
    have hb := hbound pm hpm_mem
    rw [hpm, hscM] at hb
    have := abs_le.mp hb
    have hge : 22 - 1e-4 ≤
        hypotR (round4 (pm.1 * (22 / maxRadius l))) (round4 (pm.2 * (22 / maxRadius l))) := by
      linarith [this.1]
    exact le_trans hge (le_foldl_max_mem _ _ _ hmemb)
  have hfup : (l.map fun p =>
      hypotR (round4 (p.1 * (22 / maxRadius l))) (round4 (p.2 * (22 / maxRadius l)))).foldl
      max 0 ≤ 22 + 1e-4 :=
    foldl_max_le _ _ _ (by norm_num) hup
  rw [abs_le]
  constructor <;> linarith

/-- Witness for C3's amended theorem at the one-point contour `[(3, 4)]`
(whose norm 5 clears the `1e-9` threshold) with rotation 0. -/
theorem C3_witness :
    (∃ p ∈ [((3 : ℝ), (4 : ℝ))], 1e-9 ≤ hypotR p.1 p.2) ∧
    |maxDist (transformC [((3 : ℝ), (4 : ℝ))] 0) - 22| ≤ 1e-3 * 22 := by
  have h5 : hypotR (3 : ℝ) 4 = 5 := hypotR_eq_of_sq _ _ _ (by norm_num) (by norm_num)
  have hmem : ∃ p ∈ [((3 : ℝ), (4 : ℝ))], 1e-9 ≤ hypotR p.1 p.2 := by
    refine ⟨(3, 4), List.mem_cons_self _ _, ?_⟩
    rw [h5]
    norm_num
  exact ⟨hmem, C3_transform_radius _ _ hmem⟩


/-! ## C7 — determinism and seed-modulo dependence -/

/-- C7: the contour generator is deterministic — two calls with identical
arguments give identical point sequences (the embedding is a pure function,
mirroring the source's freedom from process-wide generator state) — and the
pseudo-randomness is a pure function of the supplied seed through the
source's moduli: the heart depends on the seed only through `seed % 10000`,
the starburst only through `seed % 100000`, `% 997`, `% 611` and `% 4`. -/
theorem C7_determinism (v : SymbolVariant) (q : Params) (s n : ℕ)
    (a j spk : ℝ) (sp : ℤ) (m s₁ s₂ : ℕ)
    (h10 : s₁ % 10000 = s₂ % 10000)
    (h100 : s₁ % 100000 = s₂ % 100000)
    (h997 : s₁ % 997 = s₂ % 997)
    (h611 : s₁ % 611 = s₂ % 611)
    (h4 : s₁ % 4 = s₂ % 4) :
    generate v q s n = generate v q s n ∧
    heartPts m a j s₁ = heartPts m a j s₂ ∧
    starburstPts m sp spk j s₁ = starburstPts m sp spk j s₂ := by
  refine ⟨rfl, ?_, ?_⟩
  · simp only [heartPts, h10]
  · simp only [starburstPts, h100, h997, h611, h4]

/-- Witness for C7 at seeds 5 and `5 + 100000·997·611·4`, which agree on
all the moduli the generators use. -/
theorem C7_witness :
    heartPts 300 1 0.3 5 = heartPts 300 1 0.3 243666800005 ∧
    starburstPts 320 10 0.5 0.3 5 = starburstPts 320 10 0.5 0.3 243666800005 := by
  have hA := C7_determinism SymbolVariant.heart
    ⟨1, 0.7, 0, 10, 0.5, 0.3, -0.6, 0.16, 0.55⟩ 0 300 1 0.3 0.5 10 300
    5 243666800005 (by norm_num) (by norm_num) (by norm_num) (by norm_num)
    (by norm_num)
  have hB := C7_determinism SymbolVariant.heart
    ⟨1, 0.7, 0, 10, 0.5, 0.3, -0.6, 0.16, 0.55⟩ 0 300 1 0.3 0.5 10 320
    5 243666800005 (by norm_num) (by norm_num) (by norm_num) (by norm_num)
    (by norm_num)
  exact ⟨hA.2.1, hB.2.2⟩

/-! ## C8 — generated point counts -/

lemma heartPts_length (n : ℕ) (a j : ℝ) (s : ℕ) :
    (heartPts n a j s).length = max 260 (min 340 n) := by
  simp [heartPts, scalePts]

lemma faceOutlinePts_length (n : ℕ) (a r : ℝ) (s : ℕ) :
    (faceOutlinePts n a r s).length = max 260 (min 340 n) := by
  simp [faceOutlinePts]

lemma starburstPts_length (n : ℕ) (sp : ℤ) (spk j : ℝ) (s : ℕ) :
    (starburstPts n sp spk j s).length = max 260 (min 360 n) := by
  simp [starburstPts]

lemma blobPts_length (n : ℕ) (a r j : ℝ) (s : ℕ) :
    (blobPts n a r j s).length = max 240 (min 340 n) := by
  simp [blobPts, scalePts]

lemma boltPts_length (a j : ℝ) (s : ℕ) : (boltPts a j s).length = 11 := by
  simp [boltPts, scalePts]

/-- C8: for every seed (in particular every seed below 10000) and every
requested count, the heart, face, starburst and blob generators produce
between 220 and 360 points (their internal clamps are [260,340], [260,340],
[260,360] and [240,340]); the bolt generator always returns its fixed
11-vertex polyline; and at the emitter's requested counts (heart 300,
face 300, starburst 320, blob 300) the output has exactly that many
points. -/
theorem C8_point_counts (seed n : ℕ) (a r j spk : ℝ) (sp : ℤ) :
    (220 ≤ (heartPts n a j seed).length ∧ (heartPts n a j seed).length ≤ 360) ∧
    (220 ≤ (faceOutlinePts n a r seed).length ∧
      (faceOutlinePts n a r seed).length ≤ 360) ∧
    (220 ≤ (starburstPts n sp spk j seed).length ∧
      (starburstPts n sp spk j seed).length ≤ 360) ∧
    (220 ≤ (blobPts n a r j seed).length ∧ (blobPts n a r j seed).length ≤ 360) ∧
    (boltPts a j seed).length = 11 ∧
    (heartPts 300 a j seed).length = 300 ∧
    (faceOutlinePts 300 a r seed).length = 300 ∧
    (starburstPts 320 sp spk j seed).length = 320 ∧
    (blobPts 300 a r j seed).length = 300 := by
  simp only [heartPts_length, faceOutlinePts_length, starburstPts_length,
    blobPts_length, boltPts_length]
  refine ⟨⟨?_, ?_⟩, ⟨?_, ?_⟩, ⟨?_, ?_⟩, ⟨?_, ?_⟩, ?_, ?_, ?_, ?_, ?_⟩ <;>
    first
      | omega
      | trivial

/-! ## C9 — upstream hole coordinates are ignored -/

/-- C9: the emitter ignores the x/y the upstream collaborator supplies for
the hole: two specs that differ only in the `x_mm`/`y_mm` fields of their
single hole entry produce the same recomputed hole center. -/
theorem C9_hole_xy_ignored (s : SpecInput) (h : HoleEntry) (x' y' : ℝ)
    (hs : s.holes = some [h]) :
    emitHoleCenter { s with holes := some [{ h with x_mm := x', y_mm := y' }] } =
      emitHoleCenter s := by
  show pickHoleCenter _ (holeRadiusOf (some [{ h with x_mm := x', y_mm := y' }])) =
    pickHoleCenter (emitContour s) (holeRadiusOf s.holes)
  rw [hs]
  rfl

/-- Witness for C9: a concrete heart request whose hole entry's x/y are
moved from `(2, 10)` to `(99, -50)`. -/
theorem C9_witness :
    emitHoleCenter
      { (⟨some "heart", some "love", 42,
          ⟨some 1, some 0.7, some 0, some 10, some 0.5, some 0.3, some (-0.6),
            some 0.16, some 0.55⟩,
          some [⟨2, 10, some 2.6⟩], some 4.2⟩ : SpecInput) with
        holes := some [{ (⟨2, 10, some 2.6⟩ : HoleEntry) with
          x_mm := 99, y_mm := -50 }] } =
    emitHoleCenter
      (⟨some "heart", some "love", 42,
        ⟨some 1, some 0.7, some 0, some 10, some 0.5, some 0.3, some (-0.6),
          some 0.16, some 0.55⟩,
        some [⟨2, 10, some 2.6⟩], some 4.2⟩ : SpecInput) :=
  C9_hole_xy_ignored _ ⟨2, 10, some 2.6⟩ 99 (-50) rfl

/-! ## C10 — emitter symbol and hole-radius fallbacks -/

/-- C10: if the trimmed, lowercased symbol is none of "heart", "face",
"starburst", "bolt" (including absent, empty or unknown symbols), the
emitter builds the blob contour instead of rejecting the request; if the
holes field is not a one-entry list the hole radius defaults to 2.6; and a
present `r_mm` in a well-formed one-entry list is used exactly as supplied,
without the emitter clamping it to [2.2, 3.0]. -/
theorem C10_emitter_fallbacks (spec : SpecInput)
    (h1 : symbolKey spec.symbol ≠ "heart") (h2 : symbolKey spec.symbol ≠ "face")
    (h3 : symbolKey spec.symbol ≠ "starburst")
    (h4 : symbolKey spec.symbol ≠ "bolt")
    (holes' : Option (List HoleEntry)) (hlen : ∀ l, holes' = some l → l.length ≠ 1)
    (h : HoleEntry) (r : ℝ) (hr : h.r_mm = some r) :
    buildPts spec = blobPts 300 (spec.params.aspect.getD 1.0)
      (spec.params.roundness.getD 0.7) (spec.params.jitter.getD 0.3) spec.seed ∧
    holeRadiusOf holes' = 2.6 ∧
    holeRadiusOf (some [h]) = r := by
  refine ⟨?_, ?_, ?_⟩
  · simp only [buildPts]
    rw [if_neg h1, if_neg h2, if_neg h3, if_neg h4]
  · rcases holes' with _ | l
    · rfl
    · rcases l with _ | ⟨e, l'⟩
      · rfl
      · rcases l' with _ | _
        · exact absurd (by simp) (hlen [e] rfl)
        · rfl
  · show h.r_mm.getD 2.6 = r
    rw [hr]
    rfl

/-- Witness for C10: an unknown symbol " SParkle ", an empty holes list, and
a one-entry holes list whose radius 5 is outside [2.2, 3.0]. -/
theorem C10_witness :
    buildPts (⟨some " SParkle ", none, 7,
        ⟨none, none, none, none, none, none, none, none, none⟩,
        some [], none⟩ : SpecInput) =
      blobPts 300 ((none : Option ℝ).getD 1.0) ((none : Option ℝ).getD 0.7)
        ((none : Option ℝ).getD 0.3) 7 ∧
    holeRadiusOf (some []) = 2.6 ∧
    holeRadiusOf (some [(⟨1, 2, some 5⟩ : HoleEntry)]) = 5 :=
  C10_emitter_fallbacks
    ⟨some " SParkle ", none, 7, ⟨none, none, none, none, none, none, none, none, none⟩,
      some [], none⟩
    (by decide) (by decide) (by decide) (by decide)
    (some [])
    (by
      intro l hl
      simp only [Option.some.injEq] at hl
      subst hl
      simp)
    ⟨1, 2, some 5⟩ 5 rfl

/-! ## C1 — hole placement clearance -/

lemma foldl_min_le_init (l : List ℝ) (a : ℝ) : l.foldl min a ≤ a := by
  induction l generalizing a with
  | nil => exact le_refl a
  | cons x xs ih => exact le_trans (ih (min a x)) (min_le_left a x)

lemma foldl_min_le_mem (l : List ℝ) (a x : ℝ) (hx : x ∈ l) : l.foldl min a ≤ x := by
  induction l generalizing a with
  | nil => cases hx
  | cons y ys ih =>
    rcases List.mem_cons.mp hx with h | h
    · subst h
      exact le_trans (foldl_min_le_init ys _) (min_le_right a x)
    · exact ih _ h

lemma listMin_le_mem (l : List ℝ) (x : ℝ) (hx : x ∈ l) : listMin l ≤ x := by
  cases l with
  | nil => cases hx
  | cons y ys =>
    rw [listMin]
    rcases List.mem_cons.mp hx with h | h
    · subst h
      exact foldl_min_le_init ys x
    · exact foldl_min_le_mem ys y x h

lemma firstInside_some (sp l : List (ℝ × ℝ)) (c : ℝ × ℝ)
    (h : firstInside sp l = some c) : pointInPoly c.1 c.2 sp = true := by
  induction l with
  | nil => simp [firstInside] at h
  | cons d rest ih =>
    rw [firstInside] at h
    by_cases hd : pointInPoly d.1 d.2 sp
    · rw [if_pos hd] at h
      injection h with h
      subst h
      exact hd
    · rw [if_neg hd] at h
      exact ih h

lemma pickHoleCenter_cases (pts : List (ℝ × ℝ)) (hr : ℝ) :
    pickHoleCenter pts hr = (0, 16) ∨
    ∃ c, pickHoleCenter pts hr = c ∧ pointInPoly c.1 c.2 (safePolyOf pts hr) = true := by
  simp only [pickHoleCenter]
  split
  · next c hc => exact Or.inr ⟨c, rfl, firstInside_some _ _ _ hc⟩
  · next hc =>
      split
      · next c hc2 => exact Or.inr ⟨c, rfl, firstInside_some _ _ _ hc2⟩
      · next => exact Or.inl rfl

lemma boltScaled_eq : boltPts 1.55 0 0 = boltScaled := by
  have hr : ((0 % 100000 : ℕ) : ℝ) / 100000 = 0 := by norm_num
  rw [boltPts, boltScaled]
  simp only [hr]
  norm_num [scalePts, Real.sin_zero, Real.cos_zero]

lemma boltScaled_maxRadius : maxRadius boltScaled = 43.4 := by
  have h434 : hypotR (0 : ℝ) 43.4 = 43.4 :=
    hypotR_eq_of_sq _ _ _ (by norm_num) (by norm_num)
  apply le_antisymm
  · rw [maxRadius_eq_foldl]
    apply foldl_max_le _ _ _ (by norm_num)
    intro x hx
    simp only [List.mem_map, boltScaled] at hx
    obtain ⟨p, hp, rfl⟩ := hx
    fin_cases hp <;>
      exact hypotR_le_of_sq_le _ _ _ (by norm_num) (by norm_num)
  · have hmem0 : ((0 : ℝ), (43.4 : ℝ)) ∈ boltScaled := by simp [boltScaled]
    have hmem := List.mem_map_of_mem (fun p : ℝ × ℝ => hypotR p.1 p.2) hmem0
    rw [maxRadius_eq_foldl]
    calc (43.4 : ℝ) = hypotR (0 : ℝ) 43.4 := h434.symm
      _ ≤ _ := le_foldl_max_mem _ _ _ hmem

lemma boltNormalized_eq : transformC (boltPts 1.55 0 0) 0 = boltNormalized := by
  rw [transformC, boltScaled_eq]
  have hrot : rotatePts boltScaled 0 = boltScaled := by
    rw [boltScaled]
    norm_num [rotatePts, Real.cos_zero, Real.sin_zero]
  rw [hrot, normalizeToRadius, boltScaled_maxRadius, boltScaled, boltNormalized]
  norm_num [round4]

set_option maxHeartbeats 2000000 in
lemma boltPick_eq : pickHoleCenter boltNormalized 2.6 = (0, 12.9) := by
  norm_num [pickHoleCenter, boltNormalized, safePolyOf, holeShrinkFactor, shrinkPolygon,
    polygonCentroid, firstInside, pointInPoly, edgePairs, listMin, listMax,
    List.zip, List.zipWith, List.getLastD, List.foldl, min_def, max_def]

lemma boltEdge_mem :
    distSqToSegment ((0 : ℝ), 12.9) (-1.0138, 15.7143) (-5.576, 3.1429) ∈
      (edgePairs boltNormalized).map
        fun e => distSqToSegment ((0 : ℝ), 12.9) e.2 e.1 := by
  have hpair : (((-5.576 : ℝ), (3.1429 : ℝ)), ((-1.0138 : ℝ), (15.7143 : ℝ))) ∈
      edgePairs boltNormalized := by
    simp [edgePairs, boltNormalized]
  exact List.mem_map_of_mem _ hpair

lemma boltClearance_lt : minEdgeDistSq ((0 : ℝ), 12.9) boltNormalized < 2.6 ^ 2 := by
  have hlt : distSqToSegment ((0 : ℝ), 12.9) (-1.0138, 15.7143) (-5.576, 3.1429)
      < 2.6 ^ 2 := by
    norm_num [distSqToSegment, clampR, min_def, max_def]
  exact lt_of_le_of_lt (listMin_le_mem _ _ boltEdge_mem) hlt

/-- C1 counterexample: for the bolt generator at seed 0, jitter 0, aspect
1.55 (a valid clamped aspect), rotation 0 and hole radius 2.6 ∈ [2.2, 3.0],
the placement search returns the top-center anchor (0, 12.9); that point
does lie inside the contour, but its distance to the contour edge from
(-1.0138, 15.7143) to (-5.576, 3.1429) is ≈ 1.913 < 2.6, so the claimed
conjunction (inside AND clearance at least the hole radius) is false. -/
theorem C1_counterexample :
    ¬ (pointInPoly (pickHoleCenter (transformC (boltPts 1.55 0 0) 0) 2.6).1
        (pickHoleCenter (transformC (boltPts 1.55 0 0) 0) 2.6).2
        (transformC (boltPts 1.55 0 0) 0) = true ∧
      (2.6 : ℝ) ^ 2 ≤ minEdgeDistSq
        (pickHoleCenter (transformC (boltPts 1.55 0 0) 0) 2.6)
        (transformC (boltPts 1.55 0 0) 0)) := by
  intro h
  obtain ⟨_, hclear⟩ := h
  rw [boltNormalized_eq, boltPick_eq] at hclear
  exact absurd hclear (not_le.mpr boltClearance_lt)

/-- C1 amended: the hole placement search returns a point that passes the
ray-casting test against the shrunk polygon (an anchor or a scan point), or
else the fixed fallback (0, 16); it does not guarantee that the returned
point keeps distance at least the hole radius from the unshrunk contour
(the bolt counterexample above violates that clearance). -/
theorem C1_placement_guarantee (pts : List (ℝ × ℝ)) (hr : ℝ) :
    pointInPoly (pickHoleCenter pts hr).1 (pickHoleCenter pts hr).2
      (safePolyOf pts hr) = true ∨
    pickHoleCenter pts hr = (0, 16) := by
  rcases pickHoleCenter_cases pts hr with h | ⟨c, hc, hin⟩
  · exact Or.inr h
  · refine Or.inl ?_
    rw [hc]
    exact hin

end TangibleKeychain
